import Mathlib

/-!
Verification of the `brains-py` simulation processor (`SurrogateModel` in
`brainspy/processors/simulation/processor.py`) against its natural-language
specification.  Scalars of the tensor library are modelled as rationals; a
tensor of per-electrode values is a list of rationals.  Python attribute
errors and configuration errors are modelled with an explicit error type;
an attribute of the object that may not have been assigned yet is an outer
`Option` layer (`none` = accessing it raises `AttributeError`).
-/

namespace Brainspy

/-- Errors a call can raise: accessing a never-assigned attribute
(`AttributeError` in Python) or a bad effect configuration. -/
inductive PyErr where
  | attributeError
  | configurationError
  deriving DecidableEq, Repr

/-- The metadata record (`model.info["data_info"]`) carried by a loaded model:
per-input-electrode offsets and amplitudes, the driver amplification, and the
output clipping pair. -/
structure Info where
  offset : List ℚ
  amplitude : List ℚ
  amplification : ℚ
  clipping_value : ℚ × ℚ
  deriving DecidableEq, Repr

/-- A loaded model: an optional metadata record (`"info" in dir(self.model)`)
and the callable mapping an input to the raw network output. -/
structure Model where
  info : Option Info
  eval : ℚ → ℚ

/-- A noise model as produced by the noise factory; the Gaussian variant
carries its variance.  Its stochastic behaviour is kept abstract: `forward`
takes the perturbation semantics as a parameter. -/
inductive Noise where
  | gaussian (variance : ℚ)
  deriving DecidableEq, Repr

/-- The three effect slots of the processor object.  The outer `Option` is
attribute existence (`none` until the corresponding setter has run); the
inner `Option` is the disabled sentinel `None`. -/
structure EffectState where
  amplification : Option (Option ℚ)
  noise : Option (Option Noise)
  output_clipping : Option (Option (ℚ × ℚ))
  deriving DecidableEq, Repr

/-- Reading an object attribute: raises `AttributeError` when it was never
assigned. -/
def getAttr {α : Type} : Option α → Except PyErr α
  | none => .error .attributeError
  | some v => .ok v

/-- A value passed to `set_amplification` / `set_output_clipping`:
Python `None`, the literal string `"default"`, or an explicit value. -/
inductive EffVal (α : Type) where
  | disabled
  | dflt
  | explicit (v : α)
  deriving DecidableEq, Repr

/-- `torch.clamp(x, min := lo, max := hi)`. -/
def clamp (x lo hi : ℚ) : ℚ := min (max x lo) hi

/-- `_init_voltage_ranges`: row `i` of the derived tensor is
`[offset_i - amplitude_i, offset_i + amplitude_i]`. -/
def init_voltage_ranges (i : Info) : List (ℚ × ℚ) :=
  List.zipWith (fun o a => (o - a, o + a)) i.offset i.amplitude

/-- `__init__`: loads the model and derives the voltage ranges.  No effect
slot is assigned (the comment in `set_effects` records that it is now called
externally), so the constructed state has every slot unset. -/
def init (m : Model) : Except PyErr (List (ℚ × ℚ) × EffectState) :=
  match m.info with
  | none => .error .attributeError
  | some i => .ok (init_voltage_ranges i, ⟨none, none, none⟩)

/-- `set_amplification`: `"default"` pulls the driver amplification from the
model metadata; `None` or an explicit value is stored verbatim. -/
def set_amplification (m : Model) (value : EffVal ℚ) (s : EffectState) :
    Except PyErr EffectState :=
  match value with
  | .dflt =>
      match m.info with
      | none => .error .attributeError
      | some i => .ok { s with amplification := some (some i.amplification) }
  | .disabled => .ok { s with amplification := some none }
  | .explicit v => .ok { s with amplification := some (some v) }

/-- `set_output_clipping`: `"default"` pulls `clipping_value` from the model
metadata; `None` or an explicit value is stored verbatim. -/
def set_output_clipping (m : Model) (value : EffVal (ℚ × ℚ)) (s : EffectState) :
    Except PyErr EffectState :=
  match value with
  | .dflt =>
      match m.info with
      | none => .error .attributeError
      | some i => .ok { s with output_clipping := some (some i.clipping_value) }
  | .disabled => .ok { s with output_clipping := some none }
  | .explicit v => .ok { s with output_clipping := some (some v) }

/-- Modelled from the spec: the noise factory `get_noise` (module
`brainspy/processors/simulation/noise/noise.py`, absent from the sources;
only `processor.py` and the tests reference it).  The disabled sentinel
yields no noise model, the `"gaussian"` tag with a variance keyword yields a
Gaussian noise model, and an unrecognized tag is a fatal configuration
error. -/
def get_noise (tag : Option String) (variance : Option ℚ) :
    Except PyErr (Option Noise) :=
  match tag with
  | none => .ok none
  | some t =>
      if t = "gaussian" then
        match variance with
        | some v => .ok (some (.gaussian v))
        | none => .error .configurationError
      else .error .configurationError

/-- `set_effects`: sets amplification, then output clipping, then resolves
the noise model.  Mutations performed before a raised error stay visible,
so the function returns the state as mutated so far together with the
error, if any. -/
def set_effects (m : Model) (amplification : EffVal ℚ)
    (output_clipping : EffVal (ℚ × ℚ)) (noise : Option String)
    (variance : Option ℚ) (s : EffectState) : EffectState × Option PyErr :=
  match set_amplification m amplification s with
  | .error e => (s, some e)
  | .ok s1 =>
      match set_output_clipping m output_clipping s1 with
      | .error e => (s1, some e)
      | .ok s2 =>
          match get_noise noise variance with
          | .error e => (s2, some e)
          | .ok nm => ({ s2 with noise := some nm }, none)

/-- The amplification stage of `forward`: skipped when the slot holds the
disabled sentinel. -/
def stageAmp (a : Option ℚ) (y : ℚ) : ℚ :=
  match a with
  | none => y
  | some c => y * c

/-- The noise stage of `forward`: skipped when the slot holds the disabled
sentinel; otherwise the perturbation semantics `applyNoise` is invoked. -/
def stageNoise (applyNoise : Noise → ℚ → ℚ) (n : Option Noise) (y : ℚ) : ℚ :=
  match n with
  | none => y
  | some nm => applyNoise nm y

/-- The clipping stage of `forward`: skipped when the slot holds the
disabled sentinel. -/
def stageClip (c : Option (ℚ × ℚ)) (y : ℚ) : ℚ :=
  match c with
  | none => y
  | some p => clamp y p.1 p.2

/-- `forward`: raw model evaluation, then amplification, then noise, then
output clipping, each stage skipped when its slot is disabled; accessing a
slot that was never assigned raises `AttributeError`. -/
def forward (applyNoise : Noise → ℚ → ℚ) (m : Model) (s : EffectState)
    (x : ℚ) : Except PyErr ℚ := do
  let y := m.eval x
  let a ← getAttr s.amplification
  let y := stageAmp a y
  let n ← getAttr s.noise
  let y := stageNoise applyNoise n y
  let c ← getAttr s.output_clipping
  pure (stageClip c y)

/-- `reset`: leaves the state untouched and emits one warning. -/
def reset (s : EffectState) : EffectState × List String :=
  (s, ["Warning: Reset function in Surrogate Model not implemented."])

/-- `close`: leaves the state untouched; the warning print is commented out
in the source, so no warning is emitted. -/
def close (s : EffectState) : EffectState × List String :=
  (s, [])

/-- `is_hardware`: always `false`. -/
def is_hardware (_s : EffectState) : Bool := false

/-- `get_electrode_no`: with metadata present, the length of the offset
array and no warning; without metadata, the absent value plus one warning. -/
def get_electrode_no (m : Model) : Option ℕ × List String :=
  match m.info with
  | some i => (some i.offset.length, [])
  | none =>
      (none,
       ["Unable to retrieve electrode number from the info dictionary"])

/-- Modelled from the spec: the configuration dictionary consumed by the
batch method `set_effects_from_dict` (the method itself is absent from the
sources; only the tests reference it).  A `none` field is a key absent from
the dictionary; a present non-noise key holds disabled / `"default"` / an
explicit value; a present `noise` key holds the disabled sentinel or a noise
tag with its variance parameter. -/
structure ConfigDict where
  amplification : Option (EffVal ℚ)
  output_clipping : Option (EffVal (ℚ × ℚ))
  voltage_ranges : Option (EffVal (ℚ × ℚ))
  noise : Option (Option (String × ℚ))
  deriving DecidableEq, Repr

/-- Modelled from the spec: the per-run info dictionary passed to
`set_effects_from_dict`, holding fallback values under keys matching the
recognized effect keys (for `voltage_ranges`, the
`activation_electrodes.voltage_ranges` entry). -/
structure InfoDict where
  amplification : Option ℚ
  output_clipping : Option (ℚ × ℚ)
  voltage_ranges : Option (ℚ × ℚ)
  noise : Option (Option (String × ℚ))
  deriving DecidableEq, Repr

/-- Modelled from the spec: the effect state of the batch-configured
pipeline, including its voltage-ranges slot. -/
structure DictState where
  amplification : Option ℚ
  output_clipping : Option (ℚ × ℚ)
  voltage_ranges : Option (ℚ × ℚ)
  noise : Option Noise
  deriving DecidableEq, Repr

/-- Modelled from the spec: the per-key request resolution of
`set_effects_from_dict` — a key present in the configuration dictionary is
used as requested; a key absent there falls back to the value found under
the matching info-dictionary key, used verbatim (the default path is only
taken for the literal `"default"`); `none` means both were absent. -/
def requestedValue {α : Type} (cfg : Option (EffVal α)) (info : Option α) :
    Option (EffVal α) :=
  match cfg with
  | some v => some v
  | none => Option.map EffVal.explicit info

/-- Modelled from the spec: resolution of the amplification slot;
`"default"` pulls the driver amplification from the model metadata, and an
unresolved key leaves the prior slot unchanged. -/
def resolveAmp (m : Model) (v : Option (EffVal ℚ)) (prior : Option ℚ) :
    Except PyErr (Option ℚ) :=
  match v with
  | none => .ok prior
  | some .disabled => .ok none
  | some (.explicit w) => .ok (some w)
  | some .dflt =>
      match m.info with
      | none => .error .attributeError
      | some i => .ok (some i.amplification)

/-- Modelled from the spec: resolution of the output-clipping slot;
`"default"` pulls `clipping_value` from the model metadata, and an
unresolved key leaves the prior slot unchanged. -/
def resolveClip (m : Model) (v : Option (EffVal (ℚ × ℚ)))
    (prior : Option (ℚ × ℚ)) : Except PyErr (Option (ℚ × ℚ)) :=
  match v with
  | none => .ok prior
  | some .disabled => .ok none
  | some (.explicit w) => .ok (some w)
  | some .dflt =>
      match m.info with
      | none => .error .attributeError
      | some i => .ok (some i.clipping_value)

/-- Modelled from the spec: resolution of the voltage-ranges slot;
`"default"` takes the per-run info override when present, else the cached
derived ranges, and an unresolved key leaves the prior slot unchanged. -/
def resolveVR (derived : ℚ × ℚ) (info : InfoDict)
    (v : Option (EffVal (ℚ × ℚ))) (prior : Option (ℚ × ℚ)) :
    Except PyErr (Option (ℚ × ℚ)) :=
  match v with
  | none => .ok prior
  | some .disabled => .ok none
  | some (.explicit w) => .ok (some w)
  | some .dflt => .ok (some (info.voltage_ranges.getD derived))

/-- Modelled from the spec: resolution of the noise slot through the noise
factory; an unresolved key leaves the prior slot unchanged. -/
def resolveNoise (v : Option (Option (String × ℚ))) (prior : Option Noise) :
    Except PyErr (Option Noise) :=
  match v with
  | none => .ok prior
  | some none => .ok none
  | some (some tv) => get_noise (some tv.1) (some tv.2)

/-- Modelled from the spec: the batch configuration method
`set_effects_from_dict` (absent from the sources; only the tests reference
it): for each recognized key, a value present in the configuration
dictionary wins, else the info-dictionary value under the matching key is
used verbatim, else the prior slot is kept; the resolved requests are then
applied to all four slots. -/
def set_effects_from_dict (m : Model) (derived : ℚ × ℚ) (info : InfoDict)
    (cfg : ConfigDict) (s : DictState) : Except PyErr DictState := do
  let amp ← resolveAmp m (requestedValue cfg.amplification info.amplification)
    s.amplification
  let oc ← resolveClip m
    (requestedValue cfg.output_clipping info.output_clipping) s.output_clipping
  let vr ← resolveVR derived info
    (requestedValue cfg.voltage_ranges info.voltage_ranges) s.voltage_ranges
  let nz ← resolveNoise (match cfg.noise with
    | some v => some v
    | none => info.noise) s.noise
  pure ⟨amp, oc, vr, nz⟩

/-- A concrete metadata record used by the witnesses. -/
def iEx : Info := ⟨[0], [1], 5, (1, 2)⟩

/-- A concrete loaded model used by the witnesses: metadata `iEx` and raw
output constantly `3`. -/
def mEx : Model := ⟨some iEx, fun _ => 3⟩

/-- C1: `forward` multiplies the raw output by the amplification before
clamping to the clipping bounds: with amplification `2`, noise disabled,
clipping `[1, 2]` and raw model output `3`, the result is
`clamp(3 * 2, 1, 2) = 2`, and not `clamp(3, 1, 2) * 2`. -/
theorem C1_forward_order (applyNoise : Noise → ℚ → ℚ) (m : Model) (x : ℚ)
    (h : m.eval x = 3) :
    forward applyNoise m ⟨some (some 2), some none, some (some (1, 2))⟩ x
      = .ok (clamp (3 * 2) 1 2)
    ∧ clamp (3 * 2) 1 2 = 2
    ∧ forward applyNoise m ⟨some (some 2), some none, some (some (1, 2))⟩ x
      ≠ .ok (clamp 3 1 2 * 2) := by
  have hf : forward applyNoise m
      ⟨some (some 2), some none, some (some (1, 2))⟩ x = .ok 2 := by
    simp [forward, getAttr, stageAmp, stageNoise, stageClip, clamp, h,
      Bind.bind, Except.bind, Pure.pure, Except.pure]
  refine ⟨?_, by norm_num [clamp], ?_⟩
  · rw [hf]; norm_num [clamp]
  · rw [hf]; norm_num [clamp]

/-- C1 witness: the pipeline evaluated on the concrete model `mEx`. -/
theorem C1_forward_order_witness :
    forward (fun _ y => y) mEx
      ⟨some (some 2), some none, some (some (1, 2))⟩ 0
      = .ok (clamp (3 * 2) 1 2)
    ∧ clamp (3 * 2) 1 2 = 2
    ∧ forward (fun _ y => y) mEx
      ⟨some (some 2), some none, some (some (1, 2))⟩ 0
      ≠ .ok (clamp 3 1 2 * 2) :=
  C1_forward_order (fun _ y => y) mEx 0 rfl

/-- C2: with offset and amplitude arrays of length `n`, the derived voltage
ranges have `n` rows, row `i` being `(offset_i - amplitude_i,
offset_i + amplitude_i)`. -/
theorem C2_voltage_ranges (i : Info) (n : ℕ)
    (ho : i.offset.length = n) (ha : i.amplitude.length = n) :
    (init_voltage_ranges i).length = n
    ∧ ∀ k : ℕ, k < n →
        (init_voltage_ranges i).get? k =
          some (i.offset.getD k 0 - i.amplitude.getD k 0,
                i.offset.getD k 0 + i.amplitude.getD k 0) := by
  constructor
  · simp [init_voltage_ranges, ho, ha]
  · intro k hk
    have hko : k < i.offset.length := ho ▸ hk
    have hka : k < i.amplitude.length := ha ▸ hk
    simp only [init_voltage_ranges]
    rw [List.get?_zipWith']
    rw [List.get?_eq_get hko, List.get?_eq_get hka]
    simp [List.getD_eq_getElem?_getD, List.getElem?_eq_getElem hko,
      List.getElem?_eq_getElem hka]

/-- C2 witness: the voltage ranges of the concrete metadata `iEx`. -/
theorem C2_voltage_ranges_witness :
    (init_voltage_ranges iEx).length = 1
    ∧ ∀ k : ℕ, k < 1 →
        (init_voltage_ranges iEx).get? k =
          some (iEx.offset.getD k 0 - iEx.amplitude.getD k 0,
                iEx.offset.getD k 0 + iEx.amplitude.getD k 0) :=
  C2_voltage_ranges iEx 1 rfl rfl

/-- C3 counterexample: on the concrete model `mEx`, construction leaves all
three effect slots unset, and `forward` on the freshly constructed state
raises `AttributeError` instead of returning the raw model output. -/
theorem C3_unconfigured_forward_raises :
    init mEx = .ok (init_voltage_ranges iEx, ⟨none, none, none⟩)
    ∧ forward (fun _ y => y) mEx ⟨none, none, none⟩ 0 = .error .attributeError
    ∧ forward (fun _ y => y) mEx ⟨none, none, none⟩ 0 ≠ .ok (mEx.eval 0) := by
  refine ⟨rfl, rfl, fun hcon => ?_⟩
  rw [show forward (fun _ y => y) mEx ⟨none, none, none⟩ 0
      = .error .attributeError from rfl] at hcon
  exact Except.noConfusion hcon

/-- C3 (amended): construction does not initialize the effect slots: right
after `init` every slot is unset and `forward` raises `AttributeError`; only
after one argumentless `set_effects` call (which disables all three effects)
does `forward` become a pure pass-through of the raw model. -/
theorem C3_amended_unconfigured_state (applyNoise : Noise → ℚ → ℚ) (m : Model)
    (vr : List (ℚ × ℚ)) (s : EffectState) (x : ℚ)
    (h : init m = .ok (vr, s)) :
    s = ⟨none, none, none⟩
    ∧ forward applyNoise m s x = .error .attributeError
    ∧ ∀ s2 : EffectState,
        set_effects m .disabled .disabled none none s = (s2, none) →
        forward applyNoise m s2 x = .ok (m.eval x) := by
  have hs : s = ⟨none, none, none⟩ := by
    cases hm : m.info with
    | none => simp [init, hm] at h
    | some i =>
        simp [init, hm] at h
        exact h.2.symm
  subst hs
  refine ⟨rfl, rfl, ?_⟩
  intro s2 h2
  have hs2 : s2 = ⟨some none, some none, some none⟩ := by
    have hfst := congrArg Prod.fst h2
    simpa [set_effects, set_amplification, set_output_clipping, get_noise]
      using hfst.symm
  subst hs2
  simp [forward, getAttr, stageAmp, stageNoise, stageClip, Bind.bind,
    Except.bind, Pure.pure, Except.pure]

/-- C3 witness: the amended statement at the concrete model `mEx`. -/
theorem C3_amended_unconfigured_state_witness :
    (⟨none, none, none⟩ : EffectState) = ⟨none, none, none⟩
    ∧ forward (fun _ y => y) mEx ⟨none, none, none⟩ 1 = .error .attributeError
    ∧ ∀ s2 : EffectState,
        set_effects mEx .disabled .disabled none none ⟨none, none, none⟩
          = (s2, none) →
        forward (fun _ y => y) mEx s2 1 = .ok (mEx.eval 1) :=
  C3_amended_unconfigured_state (fun _ y => y) mEx (init_voltage_ranges iEx)
    ⟨none, none, none⟩ 1 rfl

/-- C4: a disabled effect stage is skipped entirely: with a disabled slot,
`forward` equals the pipeline without that stage (for noise, the result does
not depend on the perturbation semantics at all), and with all three slots
disabled `forward` is exactly the raw model output. -/
theorem C4_disabled_effects_skipped (applyNoise applyNoise2 : Noise → ℚ → ℚ)
    (m : Model) (a : Option ℚ) (n : Option Noise) (c : Option (ℚ × ℚ))
    (x : ℚ) :
    forward applyNoise m ⟨some none, some n, some c⟩ x
      = .ok (stageClip c (stageNoise applyNoise n (m.eval x)))
    ∧ forward applyNoise m ⟨some a, some none, some c⟩ x
      = .ok (stageClip c (stageAmp a (m.eval x)))
    ∧ forward applyNoise m ⟨some a, some none, some c⟩ x
      = forward applyNoise2 m ⟨some a, some none, some c⟩ x
    ∧ forward applyNoise m ⟨some a, some n, some none⟩ x
      = .ok (stageNoise applyNoise n (stageAmp a (m.eval x)))
    ∧ forward applyNoise m ⟨some none, some none, some none⟩ x
      = .ok (m.eval x) :=
  ⟨rfl, rfl, rfl, rfl, rfl⟩

/-- C5: for amplification and output clipping, setting the slot to
`"default"`, then to an explicit value, then to `"default"` again restores
exactly the slot value of the first default call. -/
theorem C5_default_idempotent (m : Model) (v : ℚ) (w : ℚ × ℚ)
    (s s1 s2 s3 t1 t2 t3 : EffectState)
    (h1 : set_amplification m .dflt s = .ok s1)
    (h2 : set_amplification m (.explicit v) s1 = .ok s2)
    (h3 : set_amplification m .dflt s2 = .ok s3)
    (g1 : set_output_clipping m .dflt s = .ok t1)
    (g2 : set_output_clipping m (.explicit w) t1 = .ok t2)
    (g3 : set_output_clipping m .dflt t2 = .ok t3) :
    s3.amplification = s1.amplification
    ∧ t3.output_clipping = t1.output_clipping := by
  cases hm : m.info with
  | none => simp [set_amplification, hm] at h1
  | some i =>
      simp only [set_amplification, hm] at h1 h3
      simp only [set_output_clipping, hm] at g1 g3
      have e1 : s1.amplification = some (some i.amplification) := by
        injection h1 with h1e
        rw [← h1e]
      have e3 : s3.amplification = some (some i.amplification) := by
        injection h3 with h3e
        rw [← h3e]
      have f1 : t1.output_clipping = some (some i.clipping_value) := by
        injection g1 with g1e
        rw [← g1e]
      have f3 : t3.output_clipping = some (some i.clipping_value) := by
        injection g3 with g3e
        rw [← g3e]
      exact ⟨e3.trans e1.symm, f3.trans f1.symm⟩

/-- C5 witness: default, explicit, default on the concrete model `mEx`. -/
theorem C5_default_idempotent_witness :
    (⟨some (some 5), none, none⟩ : EffectState).amplification
      = (⟨some (some 5), none, none⟩ : EffectState).amplification
    ∧ (⟨none, none, some (some (1, 2))⟩ : EffectState).output_clipping
      = (⟨none, none, some (some (1, 2))⟩ : EffectState).output_clipping :=
  C5_default_idempotent mEx 9 (9, 9) ⟨none, none, none⟩
    ⟨some (some 5), none, none⟩ ⟨some (some 9), none, none⟩
    ⟨some (some 5), none, none⟩ ⟨none, none, some (some (1, 2))⟩
    ⟨none, none, some (some (9, 9))⟩ ⟨none, none, some (some (1, 2))⟩
    rfl rfl rfl rfl rfl rfl

/-- Helper: a successful `set_effects_from_dict` resolves each of the four
slots independently from its own request. -/
theorem set_effects_from_dict_ok (m : Model) (derived : ℚ × ℚ)
    (info : InfoDict) (cfg : ConfigDict) (s s2 : DictState)
    (h : set_effects_from_dict m derived info cfg s = .ok s2) :
    resolveAmp m (requestedValue cfg.amplification info.amplification)
      s.amplification = .ok s2.amplification
    ∧ resolveClip m (requestedValue cfg.output_clipping info.output_clipping)
      s.output_clipping = .ok s2.output_clipping
    ∧ resolveVR derived info
      (requestedValue cfg.voltage_ranges info.voltage_ranges)
      s.voltage_ranges = .ok s2.voltage_ranges
    ∧ resolveNoise (match cfg.noise with
        | some v => some v
        | none => info.noise) s.noise = .ok s2.noise := by
  unfold set_effects_from_dict at h
  cases hA : resolveAmp m (requestedValue cfg.amplification info.amplification)
      s.amplification with
  | error e => rw [hA] at h; simp [Bind.bind, Except.bind] at h
  | ok amp =>
    rw [hA] at h
    simp only [Bind.bind, Except.bind] at h
    cases hB : resolveClip m
        (requestedValue cfg.output_clipping info.output_clipping)
        s.output_clipping with
    | error e => rw [hB] at h; simp at h
    | ok oc =>
      rw [hB] at h
      simp only at h
      cases hC : resolveVR derived info
          (requestedValue cfg.voltage_ranges info.voltage_ranges)
          s.voltage_ranges with
      | error e => rw [hC] at h; simp at h
      | ok vr =>
        rw [hC] at h
        simp only at h
        cases hD : resolveNoise (match cfg.noise with
            | some v => some v
            | none => info.noise) s.noise with
        | error e => rw [hD] at h; simp at h
        | ok nz =>
          rw [hD] at h
          simp only [Pure.pure, Except.pure, Except.ok.injEq] at h
          subst h
          exact ⟨rfl, rfl, rfl, rfl⟩

/-- C6: batch configuration with amplification `2`, output clipping `[3,4]`,
voltage ranges `"default"` and noise disabled, against an info dictionary
whose voltage-ranges entry is `[1,2]`, yields exactly those slot values with
noise disabled; and any recognized key absent from the configuration
dictionary falls back to the matching info-dictionary value when present,
else leaves the prior slot unchanged. -/
theorem C6_set_effects_from_dict_resolution (m : Model) (derived : ℚ × ℚ)
    (info : InfoDict) (s : DictState)
    (hvr : info.voltage_ranges = some (1, 2)) :
    set_effects_from_dict m derived info
      ⟨some (.explicit 2), some (.explicit (3, 4)), some .dflt, some none⟩ s
      = .ok ⟨some 2, some (3, 4), some (1, 2), none⟩
    ∧ ∀ (cfg : ConfigDict) (s2 : DictState) (w : ℚ) (p : ℚ × ℚ),
        set_effects_from_dict m derived info cfg s = .ok s2 →
        (cfg.amplification = none → info.amplification = some w →
            s2.amplification = some w)
        ∧ (cfg.amplification = none → info.amplification = none →
            s2.amplification = s.amplification)
        ∧ (cfg.output_clipping = none → info.output_clipping = some p →
            s2.output_clipping = some p)
        ∧ (cfg.output_clipping = none → info.output_clipping = none →
            s2.output_clipping = s.output_clipping)
        ∧ (cfg.voltage_ranges = none → s2.voltage_ranges = some (1, 2))
        ∧ (cfg.noise = none → info.noise = none → s2.noise = s.noise)
        ∧ (cfg.noise = none → info.noise = some none → s2.noise = none) := by
  constructor
  · simp [set_effects_from_dict, requestedValue, resolveAmp, resolveClip,
      resolveVR, resolveNoise, hvr, Bind.bind, Except.bind, Pure.pure,
      Except.pure]
  · intro cfg s2 w p h
    obtain ⟨hA, hB, hC, hD⟩ :=
      set_effects_from_dict_ok m derived info cfg s s2 h
    refine ⟨?_, ?_, ?_, ?_, ?_, ?_, ?_⟩
    · intro hc hi
      rw [hc, hi] at hA
      simpa [requestedValue, resolveAmp] using hA.symm
    · intro hc hi
      rw [hc, hi] at hA
      simpa [requestedValue, resolveAmp] using hA.symm
    · intro hc hi
      rw [hc, hi] at hB
      simpa [requestedValue, resolveClip] using hB.symm
    · intro hc hi
      rw [hc, hi] at hB
      simpa [requestedValue, resolveClip] using hB.symm
    · intro hc
      rw [hc, hvr] at hC
      simpa [requestedValue, resolveVR] using hC.symm
    · intro hc hi
      rw [hc, hi] at hD
      simpa [resolveNoise] using hD.symm
    · intro hc hi
      rw [hc, hi] at hD
      simpa [resolveNoise] using hD.symm

/-- C6 witness: the resolution at the concrete model `mEx`, an info
dictionary whose voltage-ranges entry is `[1,2]`, and an empty prior
state. -/
theorem C6_set_effects_from_dict_resolution_witness :
    set_effects_from_dict mEx (0, 0) ⟨none, none, some (1, 2), none⟩
      ⟨some (.explicit 2), some (.explicit (3, 4)), some .dflt, some none⟩
      ⟨none, none, none, none⟩
      = .ok ⟨some 2, some (3, 4), some (1, 2), none⟩
    ∧ ∀ (cfg : ConfigDict) (s2 : DictState) (w : ℚ) (p : ℚ × ℚ),
        set_effects_from_dict mEx (0, 0) ⟨none, none, some (1, 2), none⟩ cfg
          ⟨none, none, none, none⟩ = .ok s2 →
        (cfg.amplification = none →
            (⟨none, none, some (1, 2), none⟩ : InfoDict).amplification
              = some w →
            s2.amplification = some w)
        ∧ (cfg.amplification = none →
            (⟨none, none, some (1, 2), none⟩ : InfoDict).amplification
              = none →
            s2.amplification
              = (⟨none, none, none, none⟩ : DictState).amplification)
        ∧ (cfg.output_clipping = none →
            (⟨none, none, some (1, 2), none⟩ : InfoDict).output_clipping
              = some p →
            s2.output_clipping = some p)
        ∧ (cfg.output_clipping = none →
            (⟨none, none, some (1, 2), none⟩ : InfoDict).output_clipping
              = none →
            s2.output_clipping
              = (⟨none, none, none, none⟩ : DictState).output_clipping)
        ∧ (cfg.voltage_ranges = none → s2.voltage_ranges = some (1, 2))
        ∧ (cfg.noise = none →
            (⟨none, none, some (1, 2), none⟩ : InfoDict).noise = none →
            s2.noise = (⟨none, none, none, none⟩ : DictState).noise)
        ∧ (cfg.noise = none →
            (⟨none, none, some (1, 2), none⟩ : InfoDict).noise = some none →
            s2.noise = none) :=
  C6_set_effects_from_dict_resolution mEx (0, 0)
    ⟨none, none, some (1, 2), none⟩ ⟨none, none, none, none⟩ rfl

/-- Helper: a successful `set_amplification` only rewrites the
amplification slot, to a value depending only on the model and the
argument. -/
theorem set_amplification_shape (m : Model) (a : EffVal ℚ)
    (s s1 : EffectState) (h : set_amplification m a s = .ok s1) :
    ∃ av, s1 = { s with amplification := av }
      ∧ ∀ t : EffectState,
          set_amplification m a t = .ok { t with amplification := av } := by
  cases a with
  | disabled =>
      refine ⟨some none, ?_, fun t => rfl⟩
      simp only [set_amplification] at h
      injection h with h
      exact h.symm
  | explicit v =>
      refine ⟨some (some v), ?_, fun t => rfl⟩
      simp only [set_amplification] at h
      injection h with h
      exact h.symm
  | dflt =>
      cases hm : m.info with
      | none => simp [set_amplification, hm] at h
      | some i =>
          refine ⟨some (some i.amplification), ?_, fun t => ?_⟩
          · simp only [set_amplification, hm] at h
            injection h with h
            exact h.symm
          · simp [set_amplification, hm]

/-- Helper: a successful `set_output_clipping` only rewrites the
output-clipping slot, to a value depending only on the model and the
argument. -/
theorem set_output_clipping_shape (m : Model) (oc : EffVal (ℚ × ℚ))
    (s s1 : EffectState) (h : set_output_clipping m oc s = .ok s1) :
    ∃ cv, s1 = { s with output_clipping := cv }
      ∧ ∀ t : EffectState,
          set_output_clipping m oc t = .ok { t with output_clipping := cv } := by
  cases oc with
  | disabled =>
      refine ⟨some none, ?_, fun t => rfl⟩
      simp only [set_output_clipping] at h
      injection h with h
      exact h.symm
  | explicit v =>
      refine ⟨some (some v), ?_, fun t => rfl⟩
      simp only [set_output_clipping] at h
      injection h with h
      exact h.symm
  | dflt =>
      cases hm : m.info with
      | none => simp [set_output_clipping, hm] at h
      | some i =>
          refine ⟨some (some i.clipping_value), ?_, fun t => ?_⟩
          · simp only [set_output_clipping, hm] at h
            injection h with h
            exact h.symm
          · simp [set_output_clipping, hm]

/-- C7 counterexample: a `set_effects` call that fails while resolving the
noise model has already replaced the amplification slot, so the effect
configuration after the failed call differs from the one before it. -/
theorem C7_partial_update_visible :
    (set_effects mEx (.explicit 5) .disabled (some "bogus") none
        ⟨some (some 7), some none, some none⟩).2 = some .configurationError
    ∧ (set_effects mEx (.explicit 5) .disabled (some "bogus") none
        ⟨some (some 7), some none, some none⟩).1
        ≠ (⟨some (some 7), some none, some none⟩ : EffectState) := by
  refine ⟨rfl, ?_⟩
  decide

/-- C7 (amended): when `set_effects` fails while resolving the noise model,
the amplification and output-clipping slots have already been replaced by
the failed call; only the noise slot keeps the value it had before the
call. -/
theorem C7_amended_failure_keeps_noise_only (m : Model) (a : EffVal ℚ)
    (oc : EffVal (ℚ × ℚ)) (tag : Option String) (variance : Option ℚ)
    (s s1 s2 : EffectState) (e : PyErr)
    (h1 : set_amplification m a s = .ok s1)
    (h2 : set_output_clipping m oc s1 = .ok s2)
    (h3 : get_noise tag variance = .error e) :
    set_effects m a oc tag variance s = (s2, some e)
    ∧ s2.noise = s.noise := by
  constructor
  · simp [set_effects, h1, h2, h3]
  · obtain ⟨av, hs1, _⟩ := set_amplification_shape m a s s1 h1
    obtain ⟨cv, hs2, _⟩ := set_output_clipping_shape m oc s1 s2 h2
    subst hs2
    subst hs1
    rfl

/-- C7 witness: the amended statement at a concrete failed call on `mEx`. -/
theorem C7_amended_failure_keeps_noise_only_witness :
    set_effects mEx (.explicit 5) .disabled (some "bogus") none
      ⟨some (some 7), some none, some none⟩
      = (⟨some (some 5), some none, some none⟩, some .configurationError)
    ∧ (⟨some (some 5), some none, some none⟩ : EffectState).noise
      = (⟨some (some 7), some none, some none⟩ : EffectState).noise :=
  C7_amended_failure_keeps_noise_only mEx (.explicit 5) .disabled
    (some "bogus") none ⟨some (some 7), some none, some none⟩
    ⟨some (some 5), some none, some none⟩
    ⟨some (some 5), some none, some none⟩ .configurationError rfl rfl rfl

/-- C8: at the concrete input, `reset` keeps the state and emits exactly one
warning, while `close` keeps the state but emits no warning at all. -/
theorem C8_close_emits_no_warning :
    reset ⟨none, none, none⟩
      = (⟨none, none, none⟩,
         ["Warning: Reset function in Surrogate Model not implemented."])
    ∧ close ⟨none, none, none⟩ = (⟨none, none, none⟩, [])
    ∧ (close ⟨none, none, none⟩).2.length = 0 :=
  ⟨rfl, rfl, rfl⟩

/-- C9: with metadata present, `get_electrode_no` returns the offset-array
length with no warning; without metadata it returns the absent value plus
one warning; being a total function it never raises. -/
theorem C9_get_electrode_no_total (m : Model) (i : Info) :
    (m.info = some i → get_electrode_no m = (some i.offset.length, []))
    ∧ (m.info = none →
        (get_electrode_no m).1 = none
        ∧ (get_electrode_no m).2.length = 1) := by
  constructor
  · intro hm
    simp [get_electrode_no, hm]
  · intro hm
    simp [get_electrode_no, hm]

/-- C9 witness: a model with seven input electrodes, and a model with no
metadata record. -/
theorem C9_get_electrode_no_total_witness :
    get_electrode_no
        ⟨some ⟨[0, 0, 0, 0, 0, 0, 0], [], 1, (0, 0)⟩, fun _ => 0⟩
      = (some 7, [])
    ∧ (get_electrode_no ⟨none, fun _ => 0⟩).1 = none
    ∧ (get_electrode_no ⟨none, fun _ => 0⟩).2.length = 1 :=
  ⟨(C9_get_electrode_no_total
      ⟨some ⟨[0, 0, 0, 0, 0, 0, 0], [], 1, (0, 0)⟩, fun _ => 0⟩
      ⟨[0, 0, 0, 0, 0, 0, 0], [], 1, (0, 0)⟩).1 rfl,
   (C9_get_electrode_no_total ⟨none, fun _ => 0⟩ ⟨[], [], 1, (0, 0)⟩).2 rfl⟩

/-- C10: a successful `set_effects` call replaces all three effect slots
with values independent of the prior state, and a call with output clipping
and noise omitted (their `None` defaults) leaves those two slots disabled
regardless of the prior configuration. -/
theorem C10_set_effects_replaces_all_slots (m : Model) (a : EffVal ℚ)
    (oc : EffVal (ℚ × ℚ)) (tag : Option String) (variance : Option ℚ)
    (s t : EffectState)
    (h : (set_effects m a oc tag variance s).2 = none) :
    (set_effects m a oc tag variance t).1
      = (set_effects m a oc tag variance s).1
    ∧ (set_effects m a .disabled none none s).1.output_clipping = some none
    ∧ (set_effects m a .disabled none none s).1.noise = some none := by
  cases hA : set_amplification m a s with
  | error e =>
      simp [set_effects, hA] at h
  | ok s1 =>
    cases hB : set_output_clipping m oc s1 with
    | error e =>
        simp [set_effects, hA, hB] at h
    | ok s2 =>
      cases hN : get_noise tag variance with
      | error e =>
          simp [set_effects, hA, hB, hN] at h
      | ok nm =>
        obtain ⟨av, hs1, hAt⟩ := set_amplification_shape m a s s1 hA
        obtain ⟨cv, hs2, hBt⟩ := set_output_clipping_shape m oc s1 s2 hB
        refine ⟨?_, ?_, ?_⟩
        · have hres_s : (set_effects m a oc tag variance s).1
              = { s2 with noise := some nm } := by
            simp [set_effects, hA, hB, hN]
          have hres_t : (set_effects m a oc tag variance t).1
              = { ({ t with amplification := av } : EffectState) with
                    output_clipping := cv, noise := some nm } := by
            simp [set_effects, hAt t,
              hBt ({ t with amplification := av } : EffectState), hN]
          rw [hres_s, hres_t]
          subst hs2
          subst hs1
          rfl
        · have hres : (set_effects m a .disabled none none s).1
              = { ({ s1 with output_clipping := some none } : EffectState) with
                    noise := some none } := by
            simp [set_effects, hA, set_output_clipping, get_noise]
          rw [hres]
        · have hres : (set_effects m a .disabled none none s).1
              = { ({ s1 with output_clipping := some none } : EffectState) with
                    noise := some none } := by
            simp [set_effects, hA, set_output_clipping, get_noise]
          rw [hres]

/-- C10 witness: a concrete call on `mEx` with a previously fully
configured prior state against an empty one. -/
theorem C10_set_effects_replaces_all_slots_witness :
    (set_effects mEx (.explicit 5) .disabled none none
        ⟨some (some 1), some (some (.gaussian 1)), some (some (2, 3))⟩).1
      = (set_effects mEx (.explicit 5) .disabled none none
          ⟨none, none, none⟩).1
    ∧ (set_effects mEx (.explicit 5) .disabled none none
        ⟨none, none, none⟩).1.output_clipping = some none
    ∧ (set_effects mEx (.explicit 5) .disabled none none
        ⟨none, none, none⟩).1.noise = some none :=
  C10_set_effects_replaces_all_slots mEx (.explicit 5) .disabled none none
    ⟨none, none, none⟩
    ⟨some (some 1), some (some (.gaussian 1)), some (some (2, 3))⟩ rfl

end Brainspy
